import Mathlib

/-!
Verification of the Random-Walk-Simulation repository.

This file is a shallow embedding of the core of the repository
(src/walkers.py, src/terrains.py, src/simulation.py, src/statistics.py)
together with theorems settling the frozen claims about it.

Modelling conventions:
* Python floats are modelled as exact rationals (`ℚ`); the arithmetic the
  claims are about (midpoints, doubling, sign tests, list bookkeeping) is
  exact in the source up to float rounding.
* Randomness (`random.random`, `random.choice`, `random.uniform`) is
  modelled by explicit parameters: a draw is an input of the function that
  consumes it.
* The shapely geometry predicates (an external collaborator of the core,
  per the repository's design) are embedded as exact predicates on closed
  axis-aligned rectangles: `Point(p).intersects(Polygon)` is containment
  in the closed rectangle, and `LineString([a,b]).intersects(Polygon)` is
  non-empty intersection of the closed segment with the closed rectangle,
  realised by the standard separating-axis characterisation.
* `escape_check`'s test `sqrt(x² + y²) <= 10` is embedded as
  `x² + y² ≤ 100`, which is equivalent for exact arithmetic.
-/

/-- A 2D point, as the (x, y) coordinate pair used throughout the source. -/
abbrev Pt : Type := ℚ × ℚ

/-- An axis-aligned rectangle: bottom-left corner plus width/height.
This is the common shape of Obstacle, EnchantedGate entrances, Grass,
Water and Sand in src/terrains.py (`get_boundary` builds the polygon
`[(x,y), (x+w,y), (x+w,y+h), (x,y+h)]`). -/
structure Rect where
  x : ℚ
  y : ℚ
  width : ℚ
  height : ℚ
deriving DecidableEq

/-- Membership of a point in the closed rectangle: the embedding of
`Point(p).intersects(rect.get_boundary())` in src/simulation.py. -/
def point_in_rect (p : Pt) (r : Rect) : Bool :=
  decide (r.x ≤ p.1 ∧ p.1 ≤ r.x + r.width ∧ r.y ≤ p.2 ∧ p.2 ≤ r.y + r.height)

/-- Overlap of the closed intervals [a1, a2] and [b1, b2]. -/
def interval_overlap (a1 a2 b1 b2 : ℚ) : Bool :=
  decide (a1 ≤ b2 ∧ b1 ≤ a2)

/-- Cross product orientation of point c relative to the directed line a → b. -/
def cross_side (a b c : Pt) : ℚ :=
  (b.1 - a.1) * (c.2 - a.2) - (b.2 - a.2) * (c.1 - a.1)

/-- The four corners of a rectangle, in the order used by `get_boundary`. -/
def rect_corners (r : Rect) : List Pt :=
  [(r.x, r.y), (r.x + r.width, r.y), (r.x + r.width, r.y + r.height), (r.x, r.y + r.height)]

/-- Non-empty intersection of the closed segment [a, b] with the closed
rectangle r: the embedding of
`LineString([a, b]).intersects(rect.get_boundary())` in src/simulation.py.
This is the separating-axis characterisation for a segment and an
axis-aligned rectangle (the candidate separating axes are the two
coordinate axes and the segment's normal); it agrees with shapely's
closed-set `intersects`. -/
def seg_intersects_rect (a b : Pt) (r : Rect) : Bool :=
  interval_overlap (min a.1 b.1) (max a.1 b.1) r.x (r.x + r.width) &&
  interval_overlap (min a.2 b.2) (max a.2 b.2) r.y (r.y + r.height) &&
  ((rect_corners r).any (fun c => decide (0 ≤ cross_side a b c)) &&
   (rect_corners r).any (fun c => decide (cross_side a b c ≤ 0)))

/-- An enchanted gate: an entrance rectangle and a single exit point
(src/terrains.py, class EnchantedGate). -/
structure Gate where
  entrance : Rect
  exit_point : Pt
deriving DecidableEq

/-- The five walker variants of src/walkers.py. -/
inductive WalkerKind where
  | unitW
  | randomDistanceW
  | straightW
  | directionalBiasW
  | memoryW
deriving DecidableEq

/-- The state of a walker (src/walkers.py, class Walker and subclasses):
current position, previous position, the sticky escaped flag, and the
MemoryWalker visit history (empty and unused for the other variants).
The `kind` tag models the Python class of the instance. -/
structure Walker where
  kind : WalkerKind
  x : ℚ
  y : ℚ
  prev_x : ℚ
  prev_y : ℚ
  escaped : Bool
  memory : List Pt
deriving DecidableEq

/-- Walker.__init__ / MemoryWalker.__init__: origin, not escaped, empty memory. -/
def Walker.init (k : WalkerKind) : Walker :=
  { kind := k, x := 0, y := 0, prev_x := 0, prev_y := 0, escaped := false, memory := [] }

/-- Walker.get_location. -/
def Walker.get_location (w : Walker) : Pt := (w.x, w.y)

/-- Walker.get_prev_location. -/
def Walker.get_prev_location (w : Walker) : Pt := (w.prev_x, w.prev_y)

/-- Walker.move_back: return to the previous position. -/
def Walker.move_back (w : Walker) : Walker :=
  { w with x := w.prev_x, y := w.prev_y }

/-- Walker.set_position: set the current position to the given coordinates.
Note that the source does not touch `prev_x`/`prev_y` here. -/
def Walker.set_position (w : Walker) (p : Pt) : Walker :=
  { w with x := p.1, y := p.2 }

/-- Walker.reset_walker / MemoryWalker.reset_walker. -/
def Walker.reset_walker (w : Walker) : Walker :=
  { w with x := 0, y := 0, escaped := false, memory := [] }

/-- Walker.escape_check: returns False while the walker is within radius 10
of the origin and has never escaped; otherwise sets the sticky flag and
returns True.  `sqrt(x² + y²) ≤ 10` is embedded as `x² + y² ≤ 100`. -/
def Walker.escape_check (w : Walker) : Bool × Walker :=
  if w.x ^ 2 + w.y ^ 2 ≤ 100 ∧ w.escaped = false then (false, w)
  else (true, { w with escaped := true })

/-- The four axis-aligned unit directions, in the order they appear in
StraightWalker.move and MemoryWalker.move. -/
def straight_directions : List Pt := [(0, -1), (0, 1), (1, 0), (-1, 0)]

/-- Model of `random.choice(l)`: the draw is an arbitrary natural number,
reduced modulo the list length. -/
def pick_from (l : List Pt) (r : ℕ) : Pt := l.getD (r % l.length) (0, 0)

/-- StraightWalker.move with the random draw `r`: snapshot the previous
position, then step by a uniformly chosen axis-aligned unit vector. -/
def Walker.straight_move (w : Walker) (r : ℕ) : Walker :=
  let d := pick_from straight_directions r
  { w with prev_x := w.x, prev_y := w.y, x := w.x + d.1, y := w.y + d.2 }

/-- MemoryWalker.__memory_size. -/
def memory_size : ℕ := 1000

/-- MemoryWalker.possible_moves: the four axis-aligned neighbours of the
current position, excluding any that appear in the memory. -/
def Walker.possible_moves (w : Walker) : List Pt :=
  ([(w.x, w.y - 1), (w.x, w.y + 1), (w.x + 1, w.y), (w.x - 1, w.y)]).filter
    (fun m => decide (m ∉ w.memory))

/-- MemoryWalker.move with the random draw `r`: if some neighbour is not in
memory, move to a randomly chosen such neighbour and append it to the
memory (with no capacity check); otherwise take a uniformly random
axis-aligned step, ignoring the memory. -/
def Walker.memory_move (w : Walker) (r : ℕ) : Walker :=
  if w.possible_moves ≠ [] then
    let d := pick_from w.possible_moves r
    { w with prev_x := w.x, prev_y := w.y, x := d.1, y := d.2,
             memory := w.memory ++ [(d.1, d.2)] }
  else
    let d := pick_from straight_directions r
    { w with prev_x := w.x, prev_y := w.y, x := w.x + d.1, y := w.y + d.2 }

/-- MemoryWalker.update_memory: append the current position; if the length
then exceeds the memory size, drop the oldest entry. -/
def Walker.update_memory (w : Walker) : Walker :=
  let m := w.memory ++ [(w.x, w.y)]
  { w with memory := if memory_size < m.length then m.tail else m }

/-- The `if isinstance(walker, MemoryWalker): walker.update_memory()`
pattern of src/simulation.py. -/
def update_memory_if_memory (w : Walker) : Walker :=
  if w.kind = WalkerKind.memoryW then w.update_memory else w

/-- The embedding of `isinstance(walker, UnitWalker)` in
Simulation.choose_move.  No subclass of UnitWalker exists in the source
(RandomDistanceWalker derives directly from Walker), so the test holds
exactly for the UnitWalker class. -/
def is_instance_unit (w : Walker) : Bool := w.kind = WalkerKind.unitW

/-- The embedding of `isinstance(walker, RandomDistanceWalker)`. -/
def is_instance_random_distance (w : Walker) : Bool :=
  w.kind = WalkerKind.randomDistanceW

/-- The condition of src/simulation.py lines 443 and 455 under which
Simulation.choose_move rounds the interaction bearing to the nearest
multiple of π/2 before stepping:
`not isinstance(walker, UnitWalker) or isinstance(walker, RandomDistanceWalker)`. -/
def snaps_bearing (w : Walker) : Bool :=
  !(is_instance_unit w) || is_instance_random_distance w

/-- The step length used by the interaction branch of choose_move
(src/simulation.py lines 426-428): a freshly drawn uniform [0.5, 1.5)
value for RandomDistanceWalker, and 1 for every other variant.  `draw`
is the model of `random.uniform(0.5, 1.5)`. -/
def interaction_distance (w : Walker) (draw : ℚ) : ℚ :=
  if is_instance_random_distance w then draw else 1

/-- The terrain categories of the simulation. -/
inductive Terrain where
  | water
  | sand
  | grass
deriving DecidableEq

/-- Simulation.terrain_check: membership of the walker's current position
is tested against the water tiles, then the sand tiles, then the grass
tiles; the first match wins, and no match yields none (the source's
`False`). -/
def terrain_check (waters sands grasses : List Rect) (w : Walker) : Option Terrain :=
  if waters.any (fun t => point_in_rect w.get_location t) then some Terrain.water
  else if sands.any (fun t => point_in_rect w.get_location t) then some Terrain.sand
  else if grasses.any (fun t => point_in_rect w.get_location t) then some Terrain.grass
  else none

/-- Simulation.handle_terrain: water snaps the walker to the origin, sand
moves it to the midpoint of previous and current position, grass moves it
twice the move vector further from the current position, and anything
else leaves the position unchanged.  A MemoryWalker's memory is refreshed
afterwards in every case, mirroring the unconditional trailing
`if isinstance(walker, MemoryWalker)` of the source. -/
def handle_terrain (w : Walker) (t : Option Terrain) : Walker :=
  let w1 :=
    match t with
    | some Terrain.water => w.set_position (0, 0)
    | some Terrain.sand =>
        w.set_position ((w.get_prev_location.1 + w.get_location.1) / 2,
                        (w.get_prev_location.2 + w.get_location.2) / 2)
    | some Terrain.grass =>
        let vx := (w.get_location.1 - w.get_prev_location.1) * 2
        let vy := (w.get_location.2 - w.get_prev_location.2) * 2
        w.set_position (w.get_location.1 + vx, w.get_location.2 + vy)
    | none => w
  update_memory_if_memory w1

/-- Simulation.check_collision: the segment from the previous to the
current position intersects some obstacle. -/
def check_collision (obstacles : List Rect) (w : Walker) : Bool :=
  obstacles.any (fun ob => seg_intersects_rect w.get_prev_location w.get_location ob)

/-- Simulation.gate_check: every gate is examined in list order; whenever
the segment from the previous to the (then current) position intersects a
gate's entrance, the walker is teleported to that gate's exit point and a
MemoryWalker's memory is refreshed.  The source has no early exit, so
later gates are tested against the updated segment. -/
def gate_check (gates : List Gate) (w : Walker) : Walker :=
  gates.foldl
    (fun v g =>
      if seg_intersects_rect v.get_prev_location v.get_location g.entrance then
        update_memory_if_memory (v.set_position g.exit_point)
      else v)
    w

/-- The crossing condition of Simulation.cross_y_check:
`x * x_prev < 0 or (x_prev == 0 and x != 0)`. -/
def cross_y_cond (w : Walker) : Bool :=
  decide (w.x * w.prev_x < 0 ∨ (w.prev_x = 0 ∧ w.x ≠ 0))

/-- Simulation.cross_y_check applied to one walker's counter. -/
def cross_y_check (count : ℤ) (w : Walker) : ℤ :=
  if cross_y_cond w then count + 1 else count

/-- Simulation.escape_check for one walker: if the walker has not escaped
(per Walker.escape_check, which also maintains the sticky flag), its
escape-time entry is overwritten with the current move number `i`;
otherwise the entry is left as it is. -/
def sim_escape_check (t : Option ℤ) (w : Walker) (i : ℤ) : Option ℤ × Walker :=
  let r := w.escape_check
  (if r.1 = false then some i else t, r.2)

/-- One per-step record of Simulation.simulation_results_update.  The
source additionally stores `distance from origin`, the square root of
x² + y²; that field is irrational in general and no claim concerns it,
so it is omitted from the embedding. -/
structure StepRecord where
  locations : Pt
  escape_time : Option ℤ
  y_crosses : ℤ
  dist_from_x : ℚ
  dist_from_y : ℚ
deriving DecidableEq

/-- Simulation.simulation_results_update for one walker at one move: the
record stores the current location, the stored escape time if
Walker.escape_check reports the walker escaped and None otherwise, the
crossing counter clamped below at 0, and the distances |y| and |x| from
the axes.  The call to escape_check mutates the walker's sticky flag, so
the updated walker is returned as well. -/
def simulation_results_update (t : Option ℤ) (count : ℤ) (w : Walker) :
    StepRecord × Walker :=
  let r := w.escape_check
  ({ locations := w.get_location,
     escape_time := if r.1 then t else none,
     y_crosses := max 0 count,
     dist_from_x := |w.get_location.2|,
     dist_from_y := |w.get_location.1| }, r.2)

/-- A walker's key in the Simulation dictionaries.  The source uses the
string `type(walker).__name__ + str(index)`; since no walker class name
ends in a digit, two such strings are equal exactly when both the class
name and the index agree, so the key is embedded as the pair. -/
structure WalkerKey where
  base : WalkerKind
  idx : ℕ
deriving DecidableEq

/-- The registration state of a Simulation (the dictionaries touched by
Simulation.add_walker), with Python's insertion-ordered dicts embedded as
association lists. -/
structure SimState where
  walkers : List (WalkerKey × Walker)
  escape_times : List (WalkerKey × Option ℤ)
  crosses_y : List (WalkerKey × ℤ)
  total_dict : List (WalkerKey × List (ℤ × StepRecord))

/-- Whether a key is already present in the walker dictionary
(the `in self.__walkers` test of add_walker's while loop). -/
def key_used (s : SimState) (k : WalkerKey) : Bool :=
  s.walkers.any (fun p => p.1 = k)

/-- The index search of Simulation.add_walker: starting from `i`, advance
while the candidate key is taken.  The fuel argument bounds the search; it
is called with more fuel than there are walkers, which always suffices. -/
def find_index_from (s : SimState) (b : WalkerKind) (i : ℕ) : ℕ → ℕ
  | 0 => i
  | fuel + 1 => if key_used s ⟨b, i⟩ then find_index_from s b (i + 1) fuel else i

/-- Simulation.add_walker: compute the smallest positive index whose key is
unused, then register the walker under that key and initialise its escape
time to None, its crossing counter to -1, and its step-record table to
empty. -/
def add_walker (s : SimState) (w : Walker) : SimState :=
  let idx := find_index_from s w.kind 1 (s.walkers.length + 1)
  let k : WalkerKey := ⟨w.kind, idx⟩
  { walkers := s.walkers ++ [(k, w)],
    escape_times := s.escape_times ++ [(k, none)],
    crosses_y := s.crosses_y ++ [(k, -1)],
    total_dict := s.total_dict ++ [(k, [])] }

/-- Average of a list of rationals, as Python's `sum(l) / len(l)`
(and 0 for an empty list, since ℚ division by zero yields 0). -/
def list_average (l : List ℚ) : ℚ := l.sum / (l.length : ℚ)

/-- The non-None entries of the `escape time` column of one run, in step
order: the list comprehension of Statistics.average_escape_time. -/
def run_escape_times (run : List StepRecord) : List ℚ :=
  run.filterMap (fun sr => sr.escape_time.map (fun z => (z : ℚ)))

/-- The loop body of Statistics.average_escape_time: a run with no
recorded escape times counts as unsuccessful, otherwise the per-run
average of its recorded escape times joins the successful list. -/
def aet_step (acc : List ℚ × ℕ) (run : List StepRecord) : List ℚ × ℕ :=
  let ets := run_escape_times run
  if ets = [] then (acc.1, acc.2 + 1)
  else (acc.1 ++ [list_average ets], acc.2)

/-- The per-type body of Statistics.average_escape_time: fold over the
accumulated runs, collecting the per-run average of the recorded escape
times for runs that have any, and counting the runs that have none;
finally average the collected per-run averages (0 if there are none). -/
def average_escape_time_for (runs : List (List StepRecord)) : ℚ × ℕ :=
  let acc := runs.foldl aet_step ([], 0)
  (if acc.1 ≠ [] then list_average acc.1 else 0, acc.2)

/-- Statistics.average_escape_time over the whole accumulator: one entry
per walker type, in dictionary (insertion) order. -/
def average_escape_time (data : List (WalkerKey × List (List StepRecord))) :
    List (WalkerKey × (ℚ × ℕ)) :=
  data.map (fun p => (p.1, average_escape_time_for p.2))

/-- Whether the accumulated records of one run show the walker escaped,
i.e. some step record carries a non-None escape time. -/
def run_escaped (run : List StepRecord) : Bool :=
  run.any (fun sr => sr.escape_time.isSome)

/-- The claim's description of the per-type reduction (spec section 4.7):
the average over the runs in which the walker escaped of the per-run
average of the recorded pre-escape step-indices, paired with the count of
runs in which the walker never escaped. -/
def average_escape_time_claim (runs : List (List StepRecord)) : ℚ × ℕ :=
  let escaped := runs.filter run_escaped
  ((if escaped ≠ [] then
      list_average (escaped.map (fun run => list_average (run_escape_times run)))
    else 0),
   (runs.filter (fun run => !(run_escaped run))).length)

/-- Simulation.run_simulation's per-walker-per-step collision retry cap. -/
def max_collision_attempts : ℕ := 1000

/-- The collision retry loop of Simulation.run_simulation (lines 713-728):
while the walker's segment collides, abort once the attempt counter has
reached the cap, otherwise recompute the move (move_back, choose_move,
terrain handling — abstracted as `retry`, indexed by the attempt counter,
which also numbers the fresh random draws) and count the attempt.
`none` models the `return False` that aborts the whole run. -/
def collision_retry_loop {σ : Type} (collides : σ → Bool) (retry : ℕ → σ → σ)
    (attempts : ℕ) (w : σ) : Option σ :=
  if collides w then
    if h : max_collision_attempts ≤ attempts then none
    else collision_retry_loop collides retry (attempts + 1) (retry attempts w)
  else some w
termination_by max_collision_attempts + 1 - attempts
decreasing_by
  simp only [max_collision_attempts] at *
  omega

/-- The states reached by the retry loop: `retry_chain retry a0 w 0 = w`
and the (a+1)-st state is the retry of the a-th, with attempt counters
starting at a0. -/
def retry_chain {σ : Type} (retry : ℕ → σ → σ) (a0 : ℕ) (w : σ) : ℕ → σ
  | 0 => w
  | a + 1 => retry_chain retry (a0 + 1) (retry a0 w) a

/-- The body of run_simulation for one walker at one step: the initial
move resolution and terrain handling (`first`), then the collision retry
loop, then the post-loop work — memory refresh, gate check and
bookkeeping (`after`).  `none` propagates an aborted run. -/
def process_walker {σ : Type} (collides : σ → Bool) (first : σ → σ)
    (retry : ℕ → σ → σ) (after : σ → σ) (w : σ) : Option σ :=
  match collision_retry_loop collides retry 0 (first w) with
  | none => none
  | some w1 => some (after w1)

/-- One step of run_simulation over the tail of the walker list, with `j`
the index of the first listed walker: walkers are processed in insertion
order and an abort stops the whole run at once. -/
def sim_step {σ : Type} (collides : σ → Bool) (first : ℕ → σ → σ)
    (retry : ℕ → ℕ → σ → σ) (after : ℕ → σ → σ) :
    List σ → ℕ → Option (List σ)
  | [], _ => some []
  | w :: ws, j =>
    match process_walker collides (first j) (retry j) (after j) w with
    | none => none
    | some w1 => (sim_step collides first retry after ws (j + 1)).map (fun l => w1 :: l)

/-- The state of the walker at offset `k` in the list at the moment
run_simulation reaches it within one step, `none` if the run aborted at
an earlier walker of this step (or `k` is out of range). -/
def reach_in_step {σ : Type} (collides : σ → Bool) (first : ℕ → σ → σ)
    (retry : ℕ → ℕ → σ → σ) (after : ℕ → σ → σ) :
    List σ → ℕ → ℕ → Option σ
  | [], _, _ => none
  | w :: _, _, 0 => some w
  | w :: ws, j, k + 1 =>
    match process_walker collides (first j) (retry j) (after j) w with
    | none => none
    | some _ => reach_in_step collides first retry after ws (j + 1) k

/-- The step loop of run_simulation: `n` steps remain and `i` is the
current 1-based move number (`for i in range(1, num_moves + 1)`).
Returns the final walker states, or `none` if the run aborted. -/
def run_sim {σ : Type} (collides : σ → Bool) (first : ℕ → ℕ → σ → σ)
    (retry : ℕ → ℕ → ℕ → σ → σ) (after : ℕ → ℕ → σ → σ) :
    ℕ → ℕ → List σ → Option (List σ)
  | 0, _, ws => some ws
  | n + 1, i, ws =>
    match sim_step collides (first i) (retry i) (after i) ws 0 with
    | none => none
    | some ws1 => run_sim collides first retry after n (i + 1) ws1

/-- Simulation.run_simulation: run the whole step budget starting at move
number 1; True exactly when no walker ever aborted the run. -/
def run_simulation {σ : Type} (collides : σ → Bool) (first : ℕ → ℕ → σ → σ)
    (retry : ℕ → ℕ → ℕ → σ → σ) (after : ℕ → ℕ → σ → σ)
    (num_moves : ℕ) (ws : List σ) : Bool :=
  (run_sim collides first retry after num_moves 1 ws).isSome

/-- The run reaches walker offset `k` at move number `i` in state `w`:
the first `i - 1` steps complete, and within step `i` the walkers before
offset `k` are processed successfully. -/
def reaches_walker {σ : Type} (collides : σ → Bool) (first : ℕ → ℕ → σ → σ)
    (retry : ℕ → ℕ → ℕ → σ → σ) (after : ℕ → ℕ → σ → σ)
    (num_moves : ℕ) (ws : List σ) (i k : ℕ) (w : σ) : Prop :=
  1 ≤ i ∧ i ≤ num_moves ∧
    ∃ ws1, run_sim collides first retry after (i - 1) 1 ws = some ws1 ∧
      reach_in_step collides (first i) (retry i) (after i) ws1 0 k = some w

/-- Whether Walker.escape_check will report the walker escaped: it is
outside radius 10 of the origin, or its sticky flag is already set. -/
def escaped_now (w : Walker) : Bool :=
  !(decide (w.x ^ 2 + w.y ^ 2 ≤ 100)) || w.escaped

/-- A walker that has just stepped to (3, 0): within the escape radius,
never escaped. -/
def c2_walker : Walker :=
  { kind := WalkerKind.straightW, x := 3, y := 0, prev_x := 0, prev_y := 0,
    escaped := false, memory := [] }

/-- A MemoryWalker at the origin whose history holds exactly 1000 cells,
none of them adjacent to the origin (as an explicit memory refresh can
produce). -/
def c5_walker : Walker :=
  { kind := WalkerKind.memoryW, x := 0, y := 0, prev_x := 0, prev_y := 0,
    escaped := false, memory := List.replicate 1000 ((5 : ℚ), (5 : ℚ)) }

/-- A StraightWalker that has just made the policy move (0,0) → (1,0)
(draw 2 picks the direction (1, 0)). -/
def c6_walker : Walker := (Walker.init WalkerKind.straightW).straight_move 2

/-- A walker state with previous x-coordinate 0 and current x-coordinate 3. -/
def walk_0_3 : Walker :=
  { kind := WalkerKind.straightW, x := 3, y := 0, prev_x := 0, prev_y := 0,
    escaped := false, memory := [] }

/-- A walker state with previous x-coordinate 1 and current x-coordinate -1. -/
def walk_1_m1 : Walker :=
  { kind := WalkerKind.straightW, x := -1, y := 0, prev_x := 1, prev_y := 0,
    escaped := false, memory := [] }

/-- A walker state with previous x-coordinate -1 and current x-coordinate 1. -/
def walk_m1_1 : Walker :=
  { kind := WalkerKind.straightW, x := 1, y := 0, prev_x := -1, prev_y := 0,
    escaped := false, memory := [] }

/-- A walker state fixed at x = 0 across a step. -/
def walk_0_0 : Walker :=
  { kind := WalkerKind.straightW, x := 0, y := 5, prev_x := 0, prev_y := 4,
    escaped := false, memory := [] }

/-- First gate of the chained-teleport configuration: entrance
[2,3] × [-1,1], exit (10, 10). -/
def c4_g1 : Gate := ⟨⟨2, -1, 1, 2⟩, (10, 10)⟩

/-- Second gate of the chained-teleport configuration: entrance
[6,7] × [6,7] (crossed by the segment (0,0) → (10,10) but not by the
original segment (0,0) → (5,0)), exit (-3, -3). -/
def c4_g2 : Gate := ⟨⟨6, 6, 1, 1⟩, (-3, -3)⟩

/-- A walker whose last segment runs from (0,0) to (5,0). -/
def c4_walker : Walker :=
  { kind := WalkerKind.straightW, x := 5, y := 0, prev_x := 0, prev_y := 0,
    escaped := false, memory := [] }

/-- A walker at (4,4) having moved there from (2,0), used on a terrain
tile [3,5] × [3,5]. -/
def c8_walker : Walker :=
  { kind := WalkerKind.straightW, x := 4, y := 4, prev_x := 2, prev_y := 0,
    escaped := false, memory := [] }

/-- The terrain tile [3,5] × [3,5] containing (4,4). -/
def c8_tile : Rect := ⟨3, 3, 2, 2⟩


/-- Helper: update_memory_if_memory changes neither the current nor the
previous position, nor the kind. -/
theorem update_memory_if_memory_coords (w : Walker) :
    (update_memory_if_memory w).x = w.x ∧ (update_memory_if_memory w).y = w.y ∧
    (update_memory_if_memory w).prev_x = w.prev_x ∧
    (update_memory_if_memory w).prev_y = w.prev_y ∧
    (update_memory_if_memory w).kind = w.kind := by
  unfold update_memory_if_memory Walker.update_memory
  split <;> simp

/-- C1: evaluation of the bearing-snap condition of
Simulation.choose_move (lines 443 and 455) and of the interaction step
length (lines 426-428) on every walker variant.  The condition
`not isinstance(walker, UnitWalker) or isinstance(walker, RandomDistanceWalker)`
is true for RandomDistanceWalker, so its interaction bearing IS snapped
to a multiple of 90 degrees, while the claim (and the source's own
comment restricting snapping to walkers that can only move in cardinal
directions) requires the free-angle Unit/RandomDistance family to use
the bearing unsnapped. -/
theorem choose_move_snap_eval :
    snaps_bearing (Walker.init WalkerKind.randomDistanceW) = true ∧
    snaps_bearing (Walker.init WalkerKind.unitW) = false ∧
    snaps_bearing (Walker.init WalkerKind.straightW) = true ∧
    snaps_bearing (Walker.init WalkerKind.directionalBiasW) = true ∧
    snaps_bearing (Walker.init WalkerKind.memoryW) = true ∧
    (∀ d : ℚ, interaction_distance (Walker.init WalkerKind.randomDistanceW) d = d ∧
       interaction_distance (Walker.init WalkerKind.unitW) d = 1 ∧
       interaction_distance (Walker.init WalkerKind.straightW) d = 1) :=
  ⟨by decide, by decide, by decide, by decide, by decide, fun d => ⟨rfl, rfl, rfl⟩⟩

/-- C2 counterexample: a walker that has just stepped to (3, 0) at move 1
has not escaped, its stored current escape-time is 1, yet the step
record's escape-time field is None — the record holds None while the
walker has not escaped, refuting the claim that it holds the current
escape-time until escape. -/
theorem record_escape_time_counterexample :
    (sim_escape_check none c2_walker 1).1 = some 1 ∧
    (sim_escape_check none c2_walker 1).2.escaped = false ∧
    (simulation_results_update (sim_escape_check none c2_walker 1).1 0
        (sim_escape_check none c2_walker 1).2).1.escape_time = none := by
  unfold sim_escape_check simulation_results_update Walker.escape_check c2_walker
  norm_num

/-- C2 amended: for every walker and step, the record's escape-time field
is None while the walker has not escaped (although the stored escape-time
entry is overwritten with the current step index), and once the walker
has escaped the field holds the stored escape-time entry, which this step
leaves frozen — so once escaped it holds the step index of the last step
at which the walker had not yet escaped. -/
theorem record_escape_time_amended (t : Option ℤ) (c : ℤ) (w : Walker) (i : ℤ) :
    (escaped_now w = false →
       (simulation_results_update (sim_escape_check t w i).1 c
           (sim_escape_check t w i).2).1.escape_time = none ∧
       (sim_escape_check t w i).1 = some i ∧
       (sim_escape_check t w i).2.escaped = false) ∧
    (escaped_now w = true →
       (simulation_results_update (sim_escape_check t w i).1 c
           (sim_escape_check t w i).2).1.escape_time = t ∧
       (sim_escape_check t w i).1 = t ∧
       (sim_escape_check t w i).2.escaped = true) := by
  unfold escaped_now sim_escape_check simulation_results_update Walker.escape_check
  by_cases h1 : w.x ^ 2 + w.y ^ 2 ≤ 100 <;> by_cases h2 : w.escaped = true <;>
    simp [h1, h2]

/-- C2 witness: the amended statement evaluated on the concrete
not-yet-escaped walker at (3, 0). -/
theorem record_escape_time_amended_witness :
    (simulation_results_update (sim_escape_check none c2_walker 1).1 0
        (sim_escape_check none c2_walker 1).2).1.escape_time = none ∧
    (sim_escape_check none c2_walker 1).1 = some 1 :=
  ⟨((record_escape_time_amended none 0 c2_walker 1).1
      (by unfold escaped_now c2_walker; norm_num)).1,
   ((record_escape_time_amended none 0 c2_walker 1).1
      (by unfold escaped_now c2_walker; norm_num)).2.1⟩

/-- C5 counterexample: a MemoryWalker whose history holds exactly 1000
cells appends an 1001st entry on its own move — MemoryWalker.move has no
capacity check, so the history is not bounded by 1000 after every
appending operation. -/
theorem memory_move_capacity_counterexample :
    c5_walker.memory.length = memory_size ∧
    ((c5_walker.memory_move 0).memory).length = memory_size + 1 := by
  have hmem : c5_walker.memory = List.replicate 1000 ((5 : ℚ), (5 : ℚ)) := rfl
  have hlen : c5_walker.memory.length = 1000 := by rw [hmem, List.length_replicate]
  have hnot : ((0 : ℚ), (0 : ℚ) - 1) ∉ c5_walker.memory := by
    rw [hmem, List.mem_replicate]
    norm_num
  have hin : ((0 : ℚ), (0 : ℚ) - 1) ∈ c5_walker.possible_moves := by
    unfold Walker.possible_moves
    refine List.mem_filter.mpr ⟨?_, decide_eq_true hnot⟩
    exact List.mem_cons_self _ _
  have hne : c5_walker.possible_moves ≠ [] := List.ne_nil_of_mem hin
  refine ⟨hlen.trans rfl, ?_⟩
  have hmm : (c5_walker.memory_move 0).memory =
      c5_walker.memory ++ [((pick_from c5_walker.possible_moves 0).1,
                            (pick_from c5_walker.possible_moves 0).2)] := by
    unfold Walker.memory_move
    rw [if_pos hne]
  rw [hmm, List.length_append, hlen]
  rfl

/-- C5 amended: only the explicit refresh (MemoryWalker.update_memory)
enforces the capacity — it keeps the history at or below 1000 entries
whenever it was at or below 1000 before, evicting the oldest entry when
the append would exceed the capacity; the walker's own move appends
without eviction and can grow the history by one beyond any bound. -/
theorem memory_capacity_amended (w : Walker) (r : ℕ) :
    (w.memory.length ≤ memory_size → (w.update_memory).memory.length ≤ memory_size) ∧
    (w.memory.length = memory_size →
       (w.update_memory).memory = w.memory.tail ++ [(w.x, w.y)]) ∧
    (w.memory_move r).memory.length ≤ w.memory.length + 1 := by
  refine ⟨?_, ?_, ?_⟩
  · intro h
    unfold Walker.update_memory
    simp only [memory_size] at *
    split <;> simp_all [List.length_tail]
  · intro h
    unfold Walker.update_memory
    have hlt : memory_size < (w.memory ++ [(w.x, w.y)]).length := by
      simp [h, memory_size]
    simp only [hlt, if_true]
    match hm : w.memory with
    | [] => rw [hm] at h; simp [memory_size] at h
    | a :: l => simp
  · unfold Walker.memory_move
    split <;> simp

/-- C5 witness: the amended capacity bound evaluated on the concrete
1000-entry history. -/
theorem memory_capacity_amended_witness :
    (c5_walker.update_memory).memory.length ≤ memory_size :=
  (memory_capacity_amended c5_walker 0).1
    (by rw [show c5_walker.memory = List.replicate 1000 ((5 : ℚ), (5 : ℚ)) from rfl,
            List.length_replicate]
        exact Nat.le_refl 1000)

/-- Helper: gate_check never changes the stored previous position. -/
theorem gate_check_prev_coords (gates : List Gate) (w : Walker) :
    (gate_check gates w).prev_x = w.prev_x ∧ (gate_check gates w).prev_y = w.prev_y := by
  induction gates generalizing w with
  | nil => exact ⟨rfl, rfl⟩
  | cons g gs ih =>
    have hstep : gate_check (g :: gs) w = gate_check gs
        (if seg_intersects_rect w.get_prev_location w.get_location g.entrance then
          update_memory_if_memory (w.set_position g.exit_point) else w) := rfl
    rw [hstep]
    obtain ⟨h1, h2⟩ := ih
      (if seg_intersects_rect w.get_prev_location w.get_location g.entrance then
        update_memory_if_memory (w.set_position g.exit_point) else w)
    have hb : (if seg_intersects_rect w.get_prev_location w.get_location g.entrance then
        update_memory_if_memory (w.set_position g.exit_point) else w).prev_x = w.prev_x ∧
        (if seg_intersects_rect w.get_prev_location w.get_location g.entrance then
        update_memory_if_memory (w.set_position g.exit_point) else w).prev_y = w.prev_y := by
      split
      · have h := update_memory_if_memory_coords (w.set_position g.exit_point)
        exact ⟨h.2.2.1, h.2.2.2.1⟩
      · exact ⟨rfl, rfl⟩
    exact ⟨h1.trans hb.1, h2.trans hb.2⟩

/-- C6 counterexample: a StraightWalker that has just made the policy move
(0,0) → (1,0) is given an externally imposed transition to (2,0) through
set_position (the interaction-biased move of choose_move).  Its stored
previous position stays (0,0) instead of becoming (1,0), the position it
held immediately before that transition — so the tested segment is not
the true last segment traveled. -/
theorem prev_position_counterexample :
    c6_walker.x = 1 ∧ c6_walker.y = 0 ∧
    (c6_walker.set_position (2, 0)).get_location = (2, 0) ∧
    (c6_walker.set_position (2, 0)).get_prev_location = (0, 0) ∧
    (c6_walker.set_position (2, 0)).get_prev_location ≠ c6_walker.get_location := by
  have hc : c6_walker.x = 1 ∧ c6_walker.y = 0 ∧ c6_walker.prev_x = 0 ∧
      c6_walker.prev_y = 0 := by
    unfold c6_walker Walker.straight_move Walker.init pick_from straight_directions
    norm_num
  obtain ⟨h1, h2, h3, h4⟩ := hc
  unfold Walker.set_position Walker.get_location Walker.get_prev_location
  refine ⟨h1, h2, rfl, ?_, ?_⟩
  · simp [h3, h4]
  · rw [h1, h2, h3, h4]
    simp [Prod.ext_iff]

/-- C6 amended: the stored previous position is the snapshot taken by the
walker's own policy move (move snapshots the pre-move position), while
every externally imposed transition — set_position as used by the
interaction-biased move, the terrain effects and the gate teleports —
changes only the current position and leaves the previous position
untouched.  The segment used by the collision and gate tests therefore
runs from the origin of the walker's last policy move (or move_back
state), not necessarily from the position immediately before the latest
transition. -/
theorem prev_position_amended (w : Walker) (p : Pt) (r : ℕ) (t : Option Terrain)
    (gates : List Gate) :
    ((w.set_position p).prev_x = w.prev_x ∧ (w.set_position p).prev_y = w.prev_y ∧
     (w.set_position p).x = p.1 ∧ (w.set_position p).y = p.2) ∧
    ((w.straight_move r).prev_x = w.x ∧ (w.straight_move r).prev_y = w.y) ∧
    ((w.memory_move r).prev_x = w.x ∧ (w.memory_move r).prev_y = w.y) ∧
    ((w.update_memory).x = w.x ∧ (w.update_memory).y = w.y ∧
     (w.update_memory).prev_x = w.prev_x ∧ (w.update_memory).prev_y = w.prev_y) ∧
    ((handle_terrain w t).prev_x = w.prev_x ∧ (handle_terrain w t).prev_y = w.prev_y) ∧
    ((gate_check gates w).prev_x = w.prev_x ∧ (gate_check gates w).prev_y = w.prev_y) := by
  refine ⟨⟨rfl, rfl, rfl, rfl⟩, ⟨rfl, rfl⟩, ?_, ⟨rfl, rfl, rfl, rfl⟩, ?_,
    gate_check_prev_coords gates w⟩
  · unfold Walker.memory_move
    split <;> exact ⟨rfl, rfl⟩
  · unfold handle_terrain
    cases t with
    | none =>
      have h := update_memory_if_memory_coords w
      exact ⟨h.2.2.1, h.2.2.2.1⟩
    | some terr =>
      cases terr <;>
        first
        | (have h := update_memory_if_memory_coords (w.set_position (0, 0));
           exact ⟨h.2.2.1, h.2.2.2.1⟩)
        | (have h := update_memory_if_memory_coords (w.set_position
             ((w.get_prev_location.1 + w.get_location.1) / 2,
              (w.get_prev_location.2 + w.get_location.2) / 2));
           exact ⟨h.2.2.1, h.2.2.2.1⟩)
        | (have h := update_memory_if_memory_coords (w.set_position
             (w.get_location.1 + (w.get_location.1 - w.get_prev_location.1) * 2,
              w.get_location.2 + (w.get_location.2 - w.get_prev_location.2) * 2));
           exact ⟨h.2.2.1, h.2.2.2.1⟩)

/-- C9: the y-crossing counter.  The crossing condition of cross_y_check
holds exactly when the previous and current x-coordinates lie on strictly
opposite sides of the y-axis, or the previous is exactly 0 and the
current is nonzero; registration initialises the counter to -1; a walker
fixed at x = 0 never increments it; the single move x = 0 → x = 3
increments it exactly once; and the oscillation 1, -1, 1, -1 over three
steps increments it three times (from -1 to 2). -/
theorem cross_y_correct :
    (∀ w : Walker, cross_y_cond w = true ↔
        ((w.prev_x < 0 ∧ 0 < w.x) ∨ (0 < w.prev_x ∧ w.x < 0) ∨
         (w.prev_x = 0 ∧ w.x ≠ 0))) ∧
    (∀ (s : SimState) (w : Walker), ∃ k,
        (add_walker s w).crosses_y = s.crosses_y ++ [(k, -1)]) ∧
    (∀ (cnt : ℤ) (w : Walker), w.prev_x = 0 → w.x = 0 → cross_y_check cnt w = cnt) ∧
    cross_y_check (-1) walk_0_3 = 0 ∧
    cross_y_check (cross_y_check (cross_y_check (-1) walk_1_m1) walk_m1_1) walk_1_m1 = 2 := by
  refine ⟨?_, ?_, ?_, ?_, ?_⟩
  · intro w
    unfold cross_y_cond
    rw [decide_eq_true_iff, mul_neg_iff]
    tauto
  · intro s w
    exact ⟨_, rfl⟩
  · intro cnt w h1 h2
    unfold cross_y_check cross_y_cond
    simp [h1, h2]
  · norm_num [cross_y_check, cross_y_cond, walk_0_3, decide_eq_true_eq]
  · norm_num [cross_y_check, cross_y_cond, walk_1_m1, walk_m1_1, decide_eq_true_eq]

/-- C9 witness: a step that stays at x = 0 leaves the counter at 5. -/
theorem cross_y_correct_witness :
    cross_y_check 5 walk_0_0 = 5 :=
  cross_y_correct.2.2.1 5 walk_0_0 rfl rfl

/-- Helper: update_memory_if_memory does not move the walker. -/
theorem update_memory_if_memory_loc (v : Walker) :
    (update_memory_if_memory v).get_location = v.get_location := by
  have h := update_memory_if_memory_coords v
  unfold Walker.get_location
  rw [h.1, h.2.1]

/-- C8: terrain membership is tested against water, then sand, then grass,
first match winning; a water match moves the walker to the origin, a sand
match to the midpoint of previous and current position, a grass match to
the current position plus twice the move vector, and no match leaves the
position unchanged. -/
theorem terrain_effects_correct (waters sands grasses : List Rect) (w : Walker) :
    ((∃ t ∈ waters, point_in_rect w.get_location t = true) →
        (handle_terrain w (terrain_check waters sands grasses w)).get_location = (0, 0)) ∧
    ((∀ t ∈ waters, point_in_rect w.get_location t = false) →
     (∃ t ∈ sands, point_in_rect w.get_location t = true) →
        (handle_terrain w (terrain_check waters sands grasses w)).get_location =
          ((w.prev_x + w.x) / 2, (w.prev_y + w.y) / 2)) ∧
    ((∀ t ∈ waters, point_in_rect w.get_location t = false) →
     (∀ t ∈ sands, point_in_rect w.get_location t = false) →
     (∃ t ∈ grasses, point_in_rect w.get_location t = true) →
        (handle_terrain w (terrain_check waters sands grasses w)).get_location =
          (w.x + (w.x - w.prev_x) * 2, w.y + (w.y - w.prev_y) * 2)) ∧
    ((∀ t ∈ waters, point_in_rect w.get_location t = false) →
     (∀ t ∈ sands, point_in_rect w.get_location t = false) →
     (∀ t ∈ grasses, point_in_rect w.get_location t = false) →
        (handle_terrain w (terrain_check waters sands grasses w)).get_location =
          w.get_location) := by
  have hany : ∀ l : List Rect, (∃ t ∈ l, point_in_rect w.get_location t = true) →
      l.any (fun t => point_in_rect w.get_location t) = true := by
    intro l hl
    rw [List.any_eq_true]
    obtain ⟨t, ht, hp⟩ := hl
    exact ⟨t, ht, hp⟩
  have hnone : ∀ l : List Rect, (∀ t ∈ l, point_in_rect w.get_location t = false) →
      ¬ (l.any (fun t => point_in_rect w.get_location t) = true) := by
    intro l hl hc
    rw [List.any_eq_true] at hc
    obtain ⟨t, ht, hp⟩ := hc
    rw [hl t ht] at hp
    exact Bool.false_ne_true hp
  refine ⟨?_, ?_, ?_, ?_⟩
  · intro hw
    unfold terrain_check
    rw [if_pos (hany waters hw)]
    unfold handle_terrain
    rw [update_memory_if_memory_loc]
    rfl
  · intro hw hs
    unfold terrain_check
    rw [if_neg (hnone waters hw), if_pos (hany sands hs)]
    unfold handle_terrain
    rw [update_memory_if_memory_loc]
    rfl
  · intro hw hs hg
    unfold terrain_check
    rw [if_neg (hnone waters hw), if_neg (hnone sands hs), if_pos (hany grasses hg)]
    unfold handle_terrain
    rw [update_memory_if_memory_loc]
    rfl
  · intro hw hs hg
    unfold terrain_check
    rw [if_neg (hnone waters hw), if_neg (hnone sands hs), if_neg (hnone grasses hg)]
    unfold handle_terrain
    rw [update_memory_if_memory_loc]

/-- C8 witness: a walker at (4,4) on the water tile [3,5] × [3,5] is
snapped to the origin. -/
theorem terrain_effects_correct_witness :
    (handle_terrain c8_walker (terrain_check [c8_tile] [] [] c8_walker)).get_location =
      (0, 0) :=
  (terrain_effects_correct [c8_tile] [] [] c8_walker).1
    ⟨c8_tile, by simp,
     by norm_num [point_in_rect, c8_tile, c8_walker, Walker.get_location]⟩

/-- Helper: a key is used exactly when it is one of the walker
dictionary's keys. -/
theorem key_used_iff_mem (s : SimState) (k : WalkerKey) :
    key_used s k = true ↔ k ∈ s.walkers.map Prod.fst := by
  unfold key_used
  rw [List.any_eq_true, List.mem_map]
  constructor
  · rintro ⟨p, hp, he⟩
    exact ⟨p, hp, by simpa using he⟩
  · rintro ⟨p, hp, he⟩
    exact ⟨p, hp, by simp [he]⟩

/-- Helper: among the first `length + 1` candidate indices for a class
name, some key is unused (pigeonhole). -/
theorem exists_unused_key (s : SimState) (b : WalkerKind) :
    ∃ m, m < s.walkers.length + 1 ∧ key_used s ⟨b, 1 + m⟩ = false := by
  by_contra hcon
  push_neg at hcon
  have hall : ∀ m, m < s.walkers.length + 1 →
      (⟨b, 1 + m⟩ : WalkerKey) ∈ s.walkers.map Prod.fst := by
    intro m hm
    have hne := hcon m hm
    rw [← key_used_iff_mem]
    cases hk : key_used s ⟨b, 1 + m⟩ with
    | false => exact absurd hk hne
    | true => rfl
  have hinj : Function.Injective (fun m : ℕ => (⟨b, 1 + m⟩ : WalkerKey)) := by
    intro a c h
    have := congrArg WalkerKey.idx h
    simpa using this
  have hsub : (Finset.range (s.walkers.length + 1)).image
      (fun m => (⟨b, 1 + m⟩ : WalkerKey)) ⊆ (s.walkers.map Prod.fst).toFinset := by
    intro k hk
    rw [Finset.mem_image] at hk
    obtain ⟨m, hm, rfl⟩ := hk
    rw [List.mem_toFinset]
    exact hall m (Finset.mem_range.mp hm)
  have hcard := Finset.card_le_card hsub
  rw [Finset.card_image_of_injective _ hinj, Finset.card_range] at hcard
  have hlen := List.toFinset_card_le (s.walkers.map Prod.fst)
  rw [List.length_map] at hlen
  omega

/-- Helper: the index search of add_walker returns the smallest index at
or above the start whose key is unused, provided enough fuel. -/
theorem find_index_from_spec (s : SimState) (b : WalkerKind) :
    ∀ (fuel i : ℕ), (∃ m, m < fuel ∧ key_used s ⟨b, i + m⟩ = false) →
      key_used s ⟨b, find_index_from s b i fuel⟩ = false ∧
      i ≤ find_index_from s b i fuel ∧
      ∀ j, i ≤ j → j < find_index_from s b i fuel → key_used s ⟨b, j⟩ = true := by
  intro fuel
  induction fuel with
  | zero =>
    rintro i ⟨m, hm, _⟩
    omega
  | succ fuel ih =>
    rintro i ⟨m, hm, hfree⟩
    unfold find_index_from
    by_cases hk : key_used s ⟨b, i⟩ = true
    · rw [if_pos hk]
      have hm0 : m ≠ 0 := by
        intro h
        rw [h, Nat.add_zero] at hfree
        simp [hk] at hfree
      obtain ⟨m', rfl⟩ := Nat.exists_eq_succ_of_ne_zero hm0
      have hex : ∃ m2, m2 < fuel ∧ key_used s ⟨b, (i + 1) + m2⟩ = false :=
        ⟨m', by omega, by rw [show (i + 1) + m' = i + (m' + 1) by omega]; exact hfree⟩
      obtain ⟨h1, h2, h3⟩ := ih (i + 1) hex
      refine ⟨h1, by omega, ?_⟩
      intro j hij hjlt
      by_cases hji : j = i
      · rw [hji]; exact hk
      · exact h3 j (by omega) hjlt
    · rw [if_neg hk]
      have hkf : key_used s ⟨b, i⟩ = false := by
        cases h : key_used s ⟨b, i⟩ with
        | false => rfl
        | true => exact absurd h hk
      exact ⟨hkf, Nat.le_refl i, fun j h1 h2 => absurd h2 (by omega)⟩

/-- C10: add_walker stores the new walker under a fresh key — the class
name paired with the smallest positive index making the key unused — so
all previously registered entries are preserved, and the new walker's
escape time starts as None, its crossing counter as -1, and its
step-record table empty. -/
theorem add_walker_correct (s : SimState) (w : Walker) :
    ∃ idx, 1 ≤ idx ∧
      key_used s ⟨w.kind, idx⟩ = false ∧
      (∀ j, 1 ≤ j → j < idx → key_used s ⟨w.kind, j⟩ = true) ∧
      (add_walker s w).walkers = s.walkers ++ [(⟨w.kind, idx⟩, w)] ∧
      (add_walker s w).escape_times = s.escape_times ++ [(⟨w.kind, idx⟩, none)] ∧
      (add_walker s w).crosses_y = s.crosses_y ++ [(⟨w.kind, idx⟩, -1)] ∧
      (add_walker s w).total_dict = s.total_dict ++ [(⟨w.kind, idx⟩, [])] := by
  obtain ⟨m, hm, hfree⟩ := exists_unused_key s w.kind
  obtain ⟨h1, h2, h3⟩ := find_index_from_spec s w.kind (s.walkers.length + 1) 1
    ⟨m, hm, hfree⟩
  exact ⟨find_index_from s w.kind 1 (s.walkers.length + 1), h2, h1, h3,
    rfl, rfl, rfl, rfl⟩

/-- C10 witness: registering a UnitWalker in the empty simulation state. -/
theorem add_walker_correct_witness :
    ∃ idx, 1 ≤ idx ∧
      key_used ⟨[], [], [], []⟩ ⟨WalkerKind.unitW, idx⟩ = false ∧
      (∀ j, 1 ≤ j → j < idx →
        key_used ⟨[], [], [], []⟩ ⟨WalkerKind.unitW, j⟩ = true) ∧
      (add_walker ⟨[], [], [], []⟩ (Walker.init WalkerKind.unitW)).walkers =
        [] ++ [(⟨WalkerKind.unitW, idx⟩, Walker.init WalkerKind.unitW)] ∧
      (add_walker ⟨[], [], [], []⟩ (Walker.init WalkerKind.unitW)).escape_times =
        [] ++ [(⟨WalkerKind.unitW, idx⟩, none)] ∧
      (add_walker ⟨[], [], [], []⟩ (Walker.init WalkerKind.unitW)).crosses_y =
        [] ++ [(⟨WalkerKind.unitW, idx⟩, -1)] ∧
      (add_walker ⟨[], [], [], []⟩ (Walker.init WalkerKind.unitW)).total_dict =
        [] ++ [(⟨WalkerKind.unitW, idx⟩, [])] :=
  add_walker_correct ⟨[], [], [], []⟩ (Walker.init WalkerKind.unitW)

/-- Helper: a run contributes no recorded escape times exactly when its
records never show the walker escaped. -/
theorem run_escape_times_nil_iff (run : List StepRecord) :
    run_escape_times run = [] ↔ run_escaped run = false := by
  unfold run_escape_times run_escaped
  rw [List.filterMap_eq_nil_iff, List.any_eq_false]
  constructor
  · intro h sr hsr
    have h2 := h sr hsr
    cases het : sr.escape_time with
    | none => simp [het]
    | some z =>
      rw [het] at h2
      simp at h2
  · intro h sr hsr
    have h2 := h sr hsr
    cases het : sr.escape_time with
    | none => simp [het]
    | some z =>
      rw [het] at h2
      simp at h2

/-- Helper: the accumulator fold of average_escape_time collects the
per-run averages of the escaped runs in order and counts the runs with
no recorded escape time. -/
theorem aet_foldl (runs : List (List StepRecord)) (acc1 : List ℚ) (acc2 : ℕ) :
    runs.foldl aet_step (acc1, acc2) =
      (acc1 ++ (runs.filter run_escaped).map
         (fun run => list_average (run_escape_times run)),
       acc2 + (runs.filter (fun run => !(run_escaped run))).length) := by
  induction runs generalizing acc1 acc2 with
  | nil => simp
  | cons r rs ih =>
    rw [List.foldl_cons]
    by_cases h : run_escape_times r = []
    · have he : run_escaped r = false := (run_escape_times_nil_iff r).mp h
      have hstep : aet_step (acc1, acc2) r = (acc1, acc2 + 1) := by
        unfold aet_step
        simp [h]
      rw [hstep, ih]
      simp [List.filter_cons, he]
      omega
    · have he : run_escaped r = true := by
        cases hh : run_escaped r with
        | false => exact absurd ((run_escape_times_nil_iff r).mpr hh) h
        | true => rfl
      have hstep : aet_step (acc1, acc2) r =
          (acc1 ++ [list_average (run_escape_times r)], acc2) := by
        unfold aet_step
        simp [h]
      rw [hstep, ih]
      simp [List.filter_cons, he, List.append_assoc]

/-- Helper: the per-type reduction equals the claim-shaped formula. -/
theorem average_escape_time_for_eq_claim (runs : List (List StepRecord)) :
    average_escape_time_for runs = average_escape_time_claim runs := by
  unfold average_escape_time_for average_escape_time_claim
  rw [aet_foldl]
  simp only [List.nil_append, Nat.zero_add]
  congr 1
  by_cases h : (runs.filter run_escaped) = []
  · simp [h]
  · have hm : (runs.filter run_escaped).map
        (fun run => list_average (run_escape_times run)) ≠ [] := by
      rw [Ne, List.map_eq_nil_iff]
      exact h
    simp [h, hm]

/-- C3: average_escape_time returns, per walker type, the pair of the
average over the runs in which the walker escaped of the per-run average
of the recorded pre-escape step-indices (0 when no run escaped), and the
count of accumulated runs in which the walker never escaped. -/
theorem average_escape_time_correct
    (data : List (WalkerKey × List (List StepRecord))) :
    average_escape_time data =
      data.map (fun p => (p.1, average_escape_time_claim p.2)) := by
  unfold average_escape_time
  simp [average_escape_time_for_eq_claim]

/-- Helper: the memory refresh guard is a no-op for non-memory walkers. -/
theorem update_memory_if_memory_of_ne (v : Walker) (h : v.kind ≠ WalkerKind.memoryW) :
    update_memory_if_memory v = v := by
  unfold update_memory_if_memory
  rw [if_neg h]

/-- Helper: a walker whose segment crosses no entrance is left unchanged
by gate_check. -/
theorem gate_check_unchanged (gates : List Gate) (w : Walker)
    (h : ∀ g ∈ gates,
      seg_intersects_rect w.get_prev_location w.get_location g.entrance = false) :
    gate_check gates w = w := by
  induction gates with
  | nil => rfl
  | cons g gs ih =>
    have hstep : gate_check (g :: gs) w = gate_check gs
        (if seg_intersects_rect w.get_prev_location w.get_location g.entrance then
          update_memory_if_memory (w.set_position g.exit_point) else w) := rfl
    rw [hstep, if_neg (by simp [h g (List.mem_cons_self g gs)])]
    exact ih (fun g' hg' => h g' (List.mem_cons_of_mem g hg'))

/-- C4 amended: gates are examined in list order with no early exit, each
match teleporting the walker and leaving the segment's start in place; so
the step ends at the exit point of the first gate whose entrance the
segment crosses provided no later gate's entrance is crossed by the
segment from the original previous position to that exit — in particular
whenever exactly one gate matches. -/
theorem gate_check_first_match (l1 l2 : List Gate) (g : Gate) (w : Walker)
    (h1 : ∀ g' ∈ l1,
      seg_intersects_rect w.get_prev_location w.get_location g'.entrance = false)
    (h2 : seg_intersects_rect w.get_prev_location w.get_location g.entrance = true)
    (h3 : ∀ g' ∈ l2,
      seg_intersects_rect w.get_prev_location g.exit_point g'.entrance = false) :
    (gate_check (l1 ++ g :: l2) w).get_location = g.exit_point := by
  have ha : gate_check (l1 ++ g :: l2) w = gate_check (g :: l2) (gate_check l1 w) := by
    unfold gate_check
    rw [List.foldl_append]
  rw [ha, gate_check_unchanged l1 w h1]
  have hstep : gate_check (g :: l2) w = gate_check l2
      (if seg_intersects_rect w.get_prev_location w.get_location g.entrance then
        update_memory_if_memory (w.set_position g.exit_point) else w) := rfl
  rw [hstep, if_pos h2]
  have hc := update_memory_if_memory_coords (w.set_position g.exit_point)
  have hloc : (update_memory_if_memory (w.set_position g.exit_point)).get_location =
      g.exit_point := by
    unfold Walker.get_location
    rw [hc.1, hc.2.1]
    rfl
  have hprev : (update_memory_if_memory (w.set_position g.exit_point)).get_prev_location =
      w.get_prev_location := by
    unfold Walker.get_prev_location
    rw [hc.2.2.1, hc.2.2.2.1]
    rfl
  rw [gate_check_unchanged l2 _ (by rw [hprev, hloc]; exact h3)]
  exact hloc

/-- C4 counterexample: the segment (0,0) → (5,0) crosses the entrance of
the first gate (exit (10,10)); the updated segment (0,0) → (10,10) then
crosses the second gate's entrance, so the step ends at (-3,-3), not at
the first matching gate's exit — refuting the claim that the first match
wins regardless. -/
theorem gate_check_chain_counterexample :
    seg_intersects_rect c4_walker.get_prev_location c4_walker.get_location
      c4_g1.entrance = true ∧
    c4_g1.exit_point = (10, 10) ∧
    (gate_check [c4_g1, c4_g2] c4_walker).get_location = (-3, -3) ∧
    (gate_check [c4_g1, c4_g2] c4_walker).get_location ≠ c4_g1.exit_point := by
  have h1 : seg_intersects_rect c4_walker.get_prev_location c4_walker.get_location
      c4_g1.entrance = true := by
    norm_num [seg_intersects_rect, interval_overlap, rect_corners, cross_side,
      c4_g1, c4_walker, Walker.get_prev_location, Walker.get_location,
      min_def, max_def]
  have hfinal : (gate_check [c4_g1, c4_g2] c4_walker).get_location = (-3, -3) := by
    have e1 : gate_check [c4_g1, c4_g2] c4_walker = gate_check [c4_g2]
        (if seg_intersects_rect c4_walker.get_prev_location c4_walker.get_location
            c4_g1.entrance then
          update_memory_if_memory (c4_walker.set_position c4_g1.exit_point)
        else c4_walker) := rfl
    rw [e1, if_pos h1,
      update_memory_if_memory_of_ne _ (by unfold c4_walker Walker.set_position; simp)]
    have h2 : seg_intersects_rect
        (c4_walker.set_position c4_g1.exit_point).get_prev_location
        (c4_walker.set_position c4_g1.exit_point).get_location
        c4_g2.entrance = true := by
      norm_num [seg_intersects_rect, interval_overlap, rect_corners, cross_side,
        c4_g2, c4_g1, c4_walker, Walker.set_position, Walker.get_prev_location,
        Walker.get_location, min_def, max_def]
    have e2 : gate_check [c4_g2] (c4_walker.set_position c4_g1.exit_point) =
        gate_check []
          (if seg_intersects_rect
              (c4_walker.set_position c4_g1.exit_point).get_prev_location
              (c4_walker.set_position c4_g1.exit_point).get_location
              c4_g2.entrance then
            update_memory_if_memory
              ((c4_walker.set_position c4_g1.exit_point).set_position c4_g2.exit_point)
          else c4_walker.set_position c4_g1.exit_point) := rfl
    rw [e2, if_pos h2,
      update_memory_if_memory_of_ne _
        (by unfold c4_walker Walker.set_position; simp)]
    rfl
  refine ⟨h1, rfl, hfinal, ?_⟩
  rw [hfinal]
  simp [Prod.ext_iff, c4_g1]
  norm_num

/-- C4 witness: with a single matching gate, the walker ends exactly at
its exit point. -/
theorem gate_check_first_match_witness :
    (gate_check [c4_g1] c4_walker).get_location = c4_g1.exit_point :=
  gate_check_first_match [] [] c4_g1 c4_walker
    (fun g' hg' => absurd hg' (List.not_mem_nil g'))
    (by norm_num [seg_intersects_rect, interval_overlap, rect_corners, cross_side,
      c4_g1, c4_walker, Walker.get_prev_location, Walker.get_location,
      min_def, max_def])
    (fun g' hg' => absurd hg' (List.not_mem_nil g'))

/-- Helper: one-step unfolding of the collision retry loop. -/
theorem loop_unfold {σ : Type} (c : σ → Bool) (r : ℕ → σ → σ) (t : ℕ) (w : σ) :
    collision_retry_loop c r t w =
      if c w then
        (if max_collision_attempts ≤ t then none
         else collision_retry_loop c r (t + 1) (r t w))
      else some w := by
  rw [collision_retry_loop]
  split
  · split
    · rfl
    · rfl
  · rfl

/-- Helper: with k attempts remaining, the retry loop aborts exactly when
every state along the retry chain still collides. -/
theorem loop_none_iff_aux {σ : Type} (c : σ → Bool) (r : ℕ → σ → σ) :
    ∀ (k : ℕ) (w : σ), k ≤ max_collision_attempts →
      (collision_retry_loop c r (max_collision_attempts - k) w = none ↔
        ∀ a, a ≤ k → c (retry_chain r (max_collision_attempts - k) w a) = true) := by
  intro k
  induction k with
  | zero =>
    intro w _
    rw [loop_unfold]
    simp only [Nat.sub_zero]
    by_cases hc : c w = true
    · rw [if_pos hc, if_pos (Nat.le_refl _)]
      constructor
      · intro _ a ha
        have ha0 : a = 0 := Nat.le_zero.mp ha
        rw [ha0]
        exact hc
      · intro _
        rfl
    · rw [if_neg hc]
      constructor
      · intro h
        exact absurd h (Option.some_ne_none w)
      · intro h
        exact absurd (h 0 (Nat.le_refl 0)) hc
  | succ k ih =>
    intro w hk
    have ht : max_collision_attempts - k = (max_collision_attempts - (k + 1)) + 1 := by
      unfold max_collision_attempts at *
      omega
    have hlt : ¬ (max_collision_attempts ≤ max_collision_attempts - (k + 1)) := by
      unfold max_collision_attempts at *
      omega
    rw [loop_unfold]
    by_cases hc : c w = true
    · rw [if_pos hc, if_neg hlt]
      have hih := ih (r (max_collision_attempts - (k + 1)) w) (by omega)
      rw [ht] at hih
      rw [hih]
      constructor
      · intro h a ha
        match a with
        | 0 => exact hc
        | a + 1 =>
          have : retry_chain r (max_collision_attempts - (k + 1)) w (a + 1) =
              retry_chain r (max_collision_attempts - (k + 1) + 1)
                (r (max_collision_attempts - (k + 1)) w) a := rfl
          rw [this]
          exact h a (by omega)
      · intro h a ha
        have : retry_chain r (max_collision_attempts - (k + 1) + 1)
            (r (max_collision_attempts - (k + 1)) w) a =
            retry_chain r (max_collision_attempts - (k + 1)) w (a + 1) := rfl
        rw [this]
        exact h (a + 1) (by omega)
    · rw [if_neg hc]
      constructor
      · intro h
        exact absurd h (Option.some_ne_none w)
      · intro h
        exact absurd (h 0 (Nat.zero_le _)) hc

/-- Helper: the retry loop started at attempt 0 aborts exactly when the
initial state and all 1000 recomputed states collide. -/
theorem loop_none_iff {σ : Type} (c : σ → Bool) (r : ℕ → σ → σ) (w : σ) :
    collision_retry_loop c r 0 w = none ↔
      ∀ a, a ≤ max_collision_attempts → c (retry_chain r 0 w a) = true := by
  have h := loop_none_iff_aux c r max_collision_attempts w (Nat.le_refl _)
  rw [Nat.sub_self] at h
  exact h

/-- Helper: processing a walker aborts exactly when its retry loop does. -/
theorem process_walker_none_iff {σ : Type} (c : σ → Bool) (f : σ → σ)
    (r : ℕ → σ → σ) (a : σ → σ) (w : σ) :
    process_walker c f r a w = none ↔ collision_retry_loop c r 0 (f w) = none := by
  unfold process_walker
  cases h : collision_retry_loop c r 0 (f w) <;> simp [h]

/-- Helper: a simulation step over the walker list aborts exactly when
some walker is reached whose processing aborts. -/
theorem sim_step_none_iff {σ : Type} (c : σ → Bool) (first : ℕ → σ → σ)
    (retry : ℕ → ℕ → σ → σ) (after : ℕ → σ → σ) :
    ∀ (ws : List σ) (j : ℕ),
      (sim_step c first retry after ws j = none ↔
        ∃ k w, reach_in_step c first retry after ws j k = some w ∧
          process_walker c (first (j + k)) (retry (j + k)) (after (j + k)) w = none) := by
  intro ws
  induction ws with
  | nil =>
    intro j
    constructor
    · intro h
      exact absurd h (by simp [sim_step])
    · rintro ⟨k, w, hr, _⟩
      have hnone : reach_in_step c first retry after ([] : List σ) j k = none := by
        cases k <;> rfl
      rw [hnone] at hr
      exact absurd hr (by simp)
  | cons w ws ih =>
    intro j
    cases hp : process_walker c (first j) (retry j) (after j) w with
    | none =>
      have hred : sim_step c first retry after (w :: ws) j = none := by
        conv_lhs => rw [sim_step]
        rw [hp]
      rw [hred]
      constructor
      · intro _
        refine ⟨0, w, rfl, ?_⟩
        rw [Nat.add_zero]
        exact hp
      · intro _
        rfl
    | some w1 =>
      have hred : sim_step c first retry after (w :: ws) j =
          Option.map (fun l => w1 :: l) (sim_step c first retry after ws (j + 1)) := by
        conv_lhs => rw [sim_step]
        rw [hp]
      rw [hred, Option.map_eq_none']
      rw [ih (j + 1)]
      constructor
      · rintro ⟨k, v, hr, hn⟩
        refine ⟨k + 1, v, ?_, ?_⟩
        · have hre : reach_in_step c first retry after (w :: ws) j (k + 1) =
              reach_in_step c first retry after ws (j + 1) k := by
            conv_lhs => rw [reach_in_step]
            rw [hp]
          rw [hre]
          exact hr
        · rw [show j + (k + 1) = (j + 1) + k from by omega]
          exact hn
      · rintro ⟨k, v, hr, hn⟩
        match k with
        | 0 =>
          have hwv : w = v := Option.some.inj hr
          rw [Nat.add_zero, ← hwv, hp] at hn
          exact absurd hn (by simp)
        | k + 1 =>
          have hre : reach_in_step c first retry after (w :: ws) j (k + 1) =
              reach_in_step c first retry after ws (j + 1) k := by
            conv_lhs => rw [reach_in_step]
            rw [hp]
          rw [hre] at hr
          refine ⟨k, v, hr, ?_⟩
          rw [show (j + 1) + k = j + (k + 1) from by omega]
          exact hn

/-- Helper: the step loop aborts exactly when some step is reached whose
walker pass aborts. -/
theorem run_sim_none_iff {σ : Type} (c : σ → Bool) (first : ℕ → ℕ → σ → σ)
    (retry : ℕ → ℕ → ℕ → σ → σ) (after : ℕ → ℕ → σ → σ) :
    ∀ (n i : ℕ) (ws : List σ),
      (run_sim c first retry after n i ws = none ↔
        ∃ m, m < n ∧ ∃ ws1, run_sim c first retry after m i ws = some ws1 ∧
          sim_step c (first (i + m)) (retry (i + m)) (after (i + m)) ws1 0 = none) := by
  intro n
  induction n with
  | zero =>
    intro i ws
    constructor
    · intro h
      exact absurd h (by simp [run_sim])
    · rintro ⟨m, hm, _⟩
      omega
  | succ n ih =>
    intro i ws
    cases hs : sim_step c (first i) (retry i) (after i) ws 0 with
    | none =>
      have hred : run_sim c first retry after (n + 1) i ws = none := by
        conv_lhs => rw [run_sim]
        rw [hs]
      rw [hred]
      constructor
      · intro _
        exact ⟨0, Nat.succ_pos n, ws, rfl, by rw [Nat.add_zero]; exact hs⟩
      · intro _
        rfl
    | some ws1 =>
      have hred : run_sim c first retry after (n + 1) i ws =
          run_sim c first retry after n (i + 1) ws1 := by
        conv_lhs => rw [run_sim]
        rw [hs]
      rw [hred, ih (i + 1) ws1]
      constructor
      · rintro ⟨m, hm, ws2, hr, hn⟩
        refine ⟨m + 1, by omega, ws2, ?_, ?_⟩
        · have hh : run_sim c first retry after (m + 1) i ws =
              run_sim c first retry after m (i + 1) ws1 := by
            conv_lhs => rw [run_sim]
            rw [hs]
          rw [hh]
          exact hr
        · rw [show i + (m + 1) = (i + 1) + m from by omega]
          exact hn
      · rintro ⟨m, hm, ws2, hr, hn⟩
        match m with
        | 0 =>
          have hws : ws = ws2 := Option.some.inj hr
          rw [Nat.add_zero] at hn
          rw [← hws, hs] at hn
          exact absurd hn (by simp)
        | m + 1 =>
          have hh : run_sim c first retry after (m + 1) i ws =
              run_sim c first retry after m (i + 1) ws1 := by
            conv_lhs => rw [run_sim]
            rw [hs]
          rw [hh] at hr
          refine ⟨m, by omega, ws2, hr, ?_⟩
          rw [show (i + 1) + m = i + (m + 1) from by omega]
          exact hn

/-- Helper: a successful walker pass preserves the number of walkers. -/
theorem sim_step_length {σ : Type} (c : σ → Bool) (first : ℕ → σ → σ)
    (retry : ℕ → ℕ → σ → σ) (after : ℕ → σ → σ) :
    ∀ (ws : List σ) (j : ℕ) (l : List σ),
      sim_step c first retry after ws j = some l → l.length = ws.length := by
  intro ws
  induction ws with
  | nil =>
    intro j l h
    have hl : ([] : List σ) = l := Option.some.inj h
    rw [← hl]
  | cons w ws ih =>
    intro j l h
    cases hp : process_walker c (first j) (retry j) (after j) w with
    | none =>
      have hred : sim_step c first retry after (w :: ws) j = none := by
        conv_lhs => rw [sim_step]
        rw [hp]
      rw [hred] at h
      exact absurd h (by simp)
    | some w1 =>
      have hred : sim_step c first retry after (w :: ws) j =
          Option.map (fun l2 => w1 :: l2) (sim_step c first retry after ws (j + 1)) := by
        conv_lhs => rw [sim_step]
        rw [hp]
      rw [hred] at h
      cases hs : sim_step c first retry after ws (j + 1) with
      | none =>
        rw [hs] at h
        exact absurd h (by simp)
      | some l1 =>
        rw [hs] at h
        simp only [Option.map_some'] at h
        have hl : w1 :: l1 = l := Option.some.inj h
        rw [← hl]
        simp [ih (j + 1) l1 hs]

/-- Helper: a successful run preserves the number of walkers. -/
theorem run_sim_length {σ : Type} (c : σ → Bool) (first : ℕ → ℕ → σ → σ)
    (retry : ℕ → ℕ → ℕ → σ → σ) (after : ℕ → ℕ → σ → σ) :
    ∀ (n i : ℕ) (ws : List σ) (l : List σ),
      run_sim c first retry after n i ws = some l → l.length = ws.length := by
  intro n
  induction n with
  | zero =>
    intro i ws l h
    have hl : ws = l := Option.some.inj h
    rw [← hl]
  | succ n ih =>
    intro i ws l h
    cases hs : sim_step c (first i) (retry i) (after i) ws 0 with
    | none =>
      have hred : run_sim c first retry after (n + 1) i ws = none := by
        conv_lhs => rw [run_sim]
        rw [hs]
      rw [hred] at h
      exact absurd h (by simp)
    | some ws1 =>
      have hred : run_sim c first retry after (n + 1) i ws =
          run_sim c first retry after n (i + 1) ws1 := by
        conv_lhs => rw [run_sim]
        rw [hs]
      rw [hred] at h
      have h1 := ih (i + 1) ws1 l h
      have h2 := sim_step_length c (first i) (retry i) (after i) ws 0 ws1 hs
      rw [h1, h2]

/-- C7: run_simulation returns False exactly when some walker, reached at
some step of the run, exhausts the collision retry cap — its initial
resolved move and all 1000 recomputed moves collide; and when it returns
True the run completed the whole step budget with every walker retained. -/
theorem run_simulation_cap_correct {σ : Type} (collides : σ → Bool)
    (first : ℕ → ℕ → σ → σ) (retry : ℕ → ℕ → ℕ → σ → σ) (after : ℕ → ℕ → σ → σ)
    (num_moves : ℕ) (ws : List σ) :
    (run_simulation collides first retry after num_moves ws = false ↔
      ∃ i k w, reaches_walker collides first retry after num_moves ws i k w ∧
        ∀ a, a ≤ max_collision_attempts →
          collides (retry_chain (retry i k) 0 (first i k w) a) = true) ∧
    (run_simulation collides first retry after num_moves ws = true →
      ∃ fin, run_sim collides first retry after num_moves 1 ws = some fin ∧
        fin.length = ws.length) := by
  have hfn : run_simulation collides first retry after num_moves ws = false ↔
      run_sim collides first retry after num_moves 1 ws = none := by
    unfold run_simulation
    cases hr : run_sim collides first retry after num_moves 1 ws <;> simp
  constructor
  · rw [hfn, run_sim_none_iff]
    constructor
    · rintro ⟨m, hm, ws1, hr, hn⟩
      rw [sim_step_none_iff] at hn
      obtain ⟨k, w, hreach, hpn⟩ := hn
      rw [process_walker_none_iff, loop_none_iff] at hpn
      rw [Nat.zero_add] at hpn
      refine ⟨1 + m, k, w, ⟨by omega, by omega, ws1, ?_, hreach⟩, hpn⟩
      rw [show 1 + m - 1 = m from by omega]
      exact hr
    · rintro ⟨i, k, w, ⟨hi1, hi2, ws1, hr, hreach⟩, hchain⟩
      refine ⟨i - 1, by omega, ws1, hr, ?_⟩
      rw [show 1 + (i - 1) = i from by omega]
      rw [sim_step_none_iff]
      refine ⟨k, w, hreach, ?_⟩
      rw [process_walker_none_iff, loop_none_iff, Nat.zero_add]
      exact hchain
  · intro h
    unfold run_simulation at h
    cases hr : run_sim collides first retry after num_moves 1 ws with
    | none =>
      rw [hr] at h
      simp at h
    | some fin =>
      exact ⟨fin, rfl,
        run_sim_length collides first retry after num_moves 1 ws fin hr⟩

/-- C7 witness: a single walker whose every move collides aborts a
1-step run. -/
theorem run_simulation_cap_witness :
    run_simulation (fun _ : ℕ => true) (fun _ _ n => n) (fun _ _ _ n => n)
      (fun _ _ n => n) 1 [0] = false :=
  (run_simulation_cap_correct (fun _ : ℕ => true) (fun _ _ n => n) (fun _ _ _ n => n)
      (fun _ _ n => n) 1 [0]).1.mpr
    ⟨1, 0, 0, ⟨Nat.le_refl 1, Nat.le_refl 1, [0], rfl, rfl⟩, fun _ _ => rfl⟩

/-- C3 witness: the reduction evaluated on one accumulated walker type
with a single escaped run. -/
theorem average_escape_time_correct_witness :
    average_escape_time
        [(⟨WalkerKind.unitW, 1⟩, [[⟨(0, 0), some 3, 0, 0, 0⟩]])] =
      [(⟨WalkerKind.unitW, 1⟩,
        average_escape_time_claim [[⟨(0, 0), some 3, 0, 0, 0⟩]])] :=
  average_escape_time_correct [(⟨WalkerKind.unitW, 1⟩, [[⟨(0, 0), some 3, 0, 0, 0⟩]])]

/-- C6 witness: the amended statement evaluated on the interaction-biased
transition of the concrete walker. -/
theorem prev_position_amended_witness :
    (c6_walker.set_position (2, 0)).prev_x = c6_walker.prev_x ∧
    (c6_walker.set_position (2, 0)).prev_y = c6_walker.prev_y ∧
    (c6_walker.set_position (2, 0)).x = 2 ∧ (c6_walker.set_position (2, 0)).y = 0 :=
  ⟨(prev_position_amended c6_walker (2, 0) 0 none []).1.1,
   (prev_position_amended c6_walker (2, 0) 0 none []).1.2.1,
   (prev_position_amended c6_walker (2, 0) 0 none []).1.2.2.1,
   (prev_position_amended c6_walker (2, 0) 0 none []).1.2.2.2⟩
